import Mathlib

/-!
# go-selfupdate: the `Requester` contract (`selfupdate/requester.go`)

A shallow embedding of the two `Requester` implementations of
`selfupdate/requester.go`, `HTTPRequester` and `mockRequester`, with the
properties their specification states.

Modelling conventions.

* A Go value of type `io.ReadCloser` is `Option S`: `none` is the nil
  interface, `some s` a stream `s` of an arbitrary stream type `S`.
* A Go value of type `error` is `Option GoError`: `none` is nil.
* Go functions may have side effects.  Everything outside the requester
  (network, the variables a responder closure captures, ...) is an explicit
  world `W` that is threaded through each call: a Go function
  `func(context.Context, string) (io.ReadCloser, error)` is a Lean function
  `Ctx → String → W → (Option S × Option GoError) × W`.  A call that does not
  run such a function returns the world it was given.
* A run-time panic (index out of range, nil dereference) is the outcome
  `Outcome.panicked`.
* `int` is `Int`.  The only arithmetic is `mr.currentIndex++`, executed under
  the guard `mr.currentIndex < len(mr.fetches)`; a slice length is itself an
  `int`, so the increment cannot overflow and no wrap-around is modelled.
* Responders are modelled as functions that return; they do not alias the
  requester that stores them.
-/

namespace Selfupdate

/-! ## Go runtime values -/

/-- Go error value, observed through the text its `Error()` method gives. -/
structure GoError where
  text : String
  deriving DecidableEq

/-- Go pair `(io.ReadCloser, error)` returned by every `Fetch`. -/
abbrev FetchResult (S : Type) : Type := Option S × Option GoError

/-- Go function type `func(context.Context, string) (io.ReadCloser, error)`,
with its side effects made explicit as a change of the world `W`. -/
abbrev Responder (Ctx S W : Type) : Type := Ctx → String → W → FetchResult S × W

/-- Result of running a Go function body: it returns a value or it panics. -/
inductive Outcome (α : Type) where
  | returned (a : α)
  | panicked

/-- Verb `%d` of package `fmt` applied to an `int`: decimal digits, with a
leading minus sign for a negative value. -/
def formatD (i : Int) : String := toString i

/-- Call `fmt.Errorf` once its format string has been expanded to `text`
(no `%w` verb is used in this file, so the result wraps nothing). -/
def Errorf (text : String) : GoError := ⟨text⟩

/-- Substring test on texts: `sub` occurs in `s` as a contiguous block. -/
def containsText (s sub : String) : Prop := sub.data <:+: s.data

instance (s sub : String) : Decidable (containsText s sub) := by
  unfold containsText; infer_instance

/-- Go slice `[]T`: the nil slice, or a slice with the listed elements. -/
inductive Slice (α : Type) where
  | nil
  | mk (elems : List α)

namespace Slice

variable {α : Type}

/-- Elements of a slice in index order; the nil slice has none. -/
def toList : Slice α → List α
  | nil => []
  | mk elems => elems

/-- Comparison `s == nil`. -/
def isNil : Slice α → Bool
  | nil => true
  | mk _ => false

/-- Builtin `len(s)`. -/
def len (s : Slice α) : Int := (s.toList.length : Int)

/-- Index expression `s[i]`; `none` is the index-out-of-range panic. -/
def index (s : Slice α) (i : Int) : Option α :=
  if i < 0 then none else s.toList[i.toNat]?

/-- Builtin `append(s, x)`: a non-nil slice holding the elements of `s`
followed by `x`. -/
def append (s : Slice α) (x : α) : Slice α := mk (s.toList ++ [x])

end Slice

/-! ## mockRequester -/

/-- Struct `mockRequester` (requester.go, lines 42-45). -/
structure mockRequester (Ctx S W : Type) where
  currentIndex : Int
  fetches : Slice (Responder Ctx S W)

namespace mockRequester

variable {Ctx S W : Type}

/-- Zero value of `mockRequester`: `currentIndex` 0 and a nil `fetches`. -/
def zero : mockRequester Ctx S W := { currentIndex := 0, fetches := Slice.nil }

/-- Method `handleRequest` (requester.go, lines 47-52). -/
def handleRequest (mr : mockRequester Ctx S W) (requestHandler : Responder Ctx S W) :
    mockRequester Ctx S W :=
  let mr1 : mockRequester Ctx S W :=
    if mr.fetches.isNil then { mr with fetches := Slice.mk [] } else mr
  { mr1 with fetches := mr1.fetches.append requestHandler }

/-- Text of the error built at requester.go line 56. -/
def exhaustedText (currentIndex : Int) : String :=
  "No for currentIndex " ++ formatD currentIndex ++ " to mock"

/-- Method `Fetch` (requester.go, lines 54-62).  It returns the Go result
pair, the requester after the call and the world after the call. -/
def Fetch (mr : mockRequester Ctx S W) (ctx : Ctx) (url : String) (w : W) :
    Outcome (FetchResult S × mockRequester Ctx S W × W) :=
  if mr.fetches.len ≤ mr.currentIndex then
    Outcome.returned ((none, some (Errorf (exhaustedText mr.currentIndex))), mr, w)
  else
    match mr.fetches.index mr.currentIndex with
    | none => Outcome.panicked
    | some current =>
      let mr1 : mockRequester Ctx S W := { mr with currentIndex := mr.currentIndex + 1 }
      let r := current ctx url w
      Outcome.returned (r.1, mr1, r.2)

end mockRequester

/-! ## Call sequences on a mockRequester -/

/-- One method call on a `mockRequester`. -/
inductive Call (Ctx S W : Type) where
  | handleRequest (requestHandler : Responder Ctx S W)
  | Fetch (ctx : Ctx) (url : String)

/-- Effect of one method call on the requester and the world.  The result
pair of a `Fetch` is dropped; `handleRequest` has no result. -/
def step {Ctx S W : Type} (c : Call Ctx S W) (s : mockRequester Ctx S W × W) :
    Outcome (mockRequester Ctx S W × W) :=
  match c with
  | Call.handleRequest requestHandler => Outcome.returned (s.1.handleRequest requestHandler, s.2)
  | Call.Fetch ctx url =>
    match s.1.Fetch ctx url s.2 with
    | Outcome.panicked => Outcome.panicked
    | Outcome.returned (_, mr1, w1) => Outcome.returned (mr1, w1)

/-- Effect of a finite sequence of method calls, made one after the other. -/
def run {Ctx S W : Type} : List (Call Ctx S W) → mockRequester Ctx S W × W →
    Outcome (mockRequester Ctx S W × W)
  | [], s => Outcome.returned s
  | c :: cs, s =>
    match step c s with
    | Outcome.panicked => Outcome.panicked
    | Outcome.returned s1 => run cs s1

/-- Calls `handleRequest(f_0)`, ..., `handleRequest(f_{N-1})` in that order. -/
def registerAll {Ctx S W : Type} (mr : mockRequester Ctx S W) :
    List (Responder Ctx S W) → mockRequester Ctx S W
  | [] => mr
  | f :: fs => registerAll (mr.handleRequest f) fs

/-- Calls `Fetch` once per argument pair, in order, collecting the result
pairs. -/
def fetchAll {Ctx S W : Type} (mr : mockRequester Ctx S W) (w : W) :
    List (Ctx × String) → Outcome (List (FetchResult S) × mockRequester Ctx S W × W)
  | [] => Outcome.returned ([], mr, w)
  | a :: rest =>
    match mr.Fetch a.1 a.2 w with
    | Outcome.panicked => Outcome.panicked
    | Outcome.returned (r, mr1, w1) =>
      match fetchAll mr1 w1 rest with
      | Outcome.panicked => Outcome.panicked
      | Outcome.returned (rs, mr2, w2) => Outcome.returned (r :: rs, mr2, w2)

/-- Specification side of in-order consumption, written from the spec's
words: the k-th responder is applied once to the k-th argument pair, one
responder after the other in registration order. -/
def inRegistrationOrder {Ctx S W : Type} :
    List (Responder Ctx S W) → List (Ctx × String) → W → List (FetchResult S) × W
  | f :: fs, a :: rest, w =>
    let r := f a.1 a.2 w
    let tail := inRegistrationOrder fs rest r.2
    (r.1 :: tail.1, tail.2)
  | _, _, w => ([], w)

/-! ## HTTPRequester -/

/-- Fields of `http.Response` that `HTTPRequester.Fetch` reads. -/
structure Response (S : Type) where
  Status : String
  StatusCode : Int
  Body : Option S

/-- Package `net/http` as far as `HTTPRequester.Fetch` uses it.
`NewRequestWithContext` is the request constructor (its body argument, always
nil here, is left out); `Do` is `http.DefaultClient.Do`, whose network
activity is a change of the world.  Both return Go pairs, and the request and
the response are pointers, which may be nil. -/
structure HTTPClient (Ctx Req S W : Type) where
  NewRequestWithContext : Ctx → String → String → Option Req × Option GoError
  Do : Option Req → W → (Option (Response S) × Option GoError) × W

/-- Constant `http.MethodGet`. -/
def MethodGet : String := "GET"

/-- Struct `HTTPRequester` (requester.go, lines 18-19): no fields. -/
structure HTTPRequester where

/-- Text of the error built at requester.go line 34. -/
def badStatusText (url status : String) : String :=
  "bad http status from " ++ url ++ ": " ++ status

/-- Method `Fetch` of `HTTPRequester` (requester.go, lines 23-38), over an
abstract `net/http`. -/
def HTTPRequester.Fetch {Ctx Req S W : Type} (_httpRequester : HTTPRequester)
    (http : HTTPClient Ctx Req S W) (ctx : Ctx) (url : String) (w : W) :
    Outcome (FetchResult S × W) :=
  match http.NewRequestWithContext ctx MethodGet url with
  | (_, some err) => Outcome.returned ((none, some err), w)
  | (req, none) =>
    match http.Do req w with
    | ((_, some err), w1) => Outcome.returned ((none, some err), w1)
    | ((none, none), _) => Outcome.panicked
    | ((some resp, none), w1) =>
      if resp.StatusCode ≠ 200 then
        Outcome.returned ((none, some (Errorf (badStatusText url resp.Status))), w1)
      else
        Outcome.returned ((resp.Body, none), w1)

/-! ## Concrete instances

Contexts are `Unit`, a stream is the text it yields, and the world is the log
of what has run so far. -/

/-- Responder that logs `name` and returns a stream made from the url. -/
def okResponder (name : String) : Responder Unit String (List String) :=
  fun _ url w => ((some ("body of " ++ url), none), w ++ [name])

/-- Responder that logs `name` and returns an error. -/
def errResponder (name : String) : Responder Unit String (List String) :=
  fun _ _ w => ((none, some (GoError.mk "boom")), w ++ [name])

/-- Responder that returns a non-nil stream together with a non-nil error. -/
def bothResponder : Responder Unit String (List String) :=
  fun _ _ w => ((some "truncated", some (GoError.mk "late failure")), w)

/-- Requester with two responders registered and none consumed. -/
def twoResponders : mockRequester Unit String (List String) :=
  { currentIndex := 0, fetches := Slice.mk [okResponder "f0", errResponder "f1"] }

/-- Requester whose two responders have both been consumed. -/
def exhaustedTwo : mockRequester Unit String (List String) :=
  { currentIndex := 2, fetches := Slice.mk [okResponder "f0", errResponder "f1"] }

/-- Requester with two responders registered, the first one consumed. -/
def oneConsumed : mockRequester Unit String (List String) :=
  { currentIndex := 1, fetches := Slice.mk [okResponder "f0", errResponder "f1"] }

/-- Requester whose next responder is `bothResponder`. -/
def bothRequester : mockRequester Unit String (List String) :=
  { currentIndex := 0, fetches := Slice.mk [bothResponder] }

/-- Instance of `net/http`: a request is its url, construction fails on the
url ":", and the server answers by url; every dispatch is logged. -/
def demoClient : HTTPClient Unit String String (List String) where
  NewRequestWithContext := fun _ _ url =>
    if url = ":" then (none, some (GoError.mk "missing protocol scheme")) else (some url, none)
  Do := fun req w =>
    match req with
    | none => ((none, some (GoError.mk "nil Request")), w)
    | some url =>
      if url = "http://down/" then
        ((none, some (GoError.mk "connection refused")), w ++ [url])
      else if url = "http://host/missing" then
        ((some { Status := "404 Not Found", StatusCode := 404, Body := some "not here" }, none),
          w ++ [url])
      else
        ((some { Status := "200 OK", StatusCode := 200, Body := some "payload" }, none),
          w ++ [url])

/-! ## Basic facts about slices -/

theorem Slice.len_nonneg {α : Type} (s : Slice α) : 0 ≤ s.len := by
  unfold Slice.len; exact Int.ofNat_nonneg _

theorem Slice.index_of_lt {α : Type} (s : Slice α) (i : Int) (h0 : 0 ≤ i) (h1 : i < s.len) :
    ∃ x, s.index i = some x ∧ s.toList[i.toNat]? = some x := by
  unfold Slice.len at h1
  have hlt : i.toNat < s.toList.length := by omega
  refine ⟨s.toList[i.toNat], ?_, ?_⟩
  · unfold Slice.index
    rw [if_neg (by omega)]
    exact List.getElem?_eq_getElem hlt
  · exact List.getElem?_eq_getElem hlt

theorem Slice.len_append {α : Type} (s : Slice α) (x : α) : (s.append x).len = s.len + 1 := by
  simp [Slice.append, Slice.len, Slice.toList]

theorem Slice.toList_append {α : Type} (s : Slice α) (x : α) :
    (s.append x).toList = s.toList ++ [x] := rfl

/-! ## Basic facts about the two mockRequester methods -/

section MockLemmas

variable {Ctx S W : Type}

theorem handleRequest_currentIndex (mr : mockRequester Ctx S W) (fn : Responder Ctx S W) :
    (mr.handleRequest fn).currentIndex = mr.currentIndex := by
  unfold mockRequester.handleRequest
  cases h : mr.fetches.isNil <;> simp

theorem handleRequest_toList (mr : mockRequester Ctx S W) (fn : Responder Ctx S W) :
    (mr.handleRequest fn).fetches.toList = mr.fetches.toList ++ [fn] := by
  unfold mockRequester.handleRequest
  cases hf : mr.fetches with
  | nil => simp [Slice.isNil, Slice.append, Slice.toList]
  | mk elems => simp [Slice.isNil, Slice.append, Slice.toList, hf]

theorem handleRequest_len (mr : mockRequester Ctx S W) (fn : Responder Ctx S W) :
    (mr.handleRequest fn).fetches.len = mr.fetches.len + 1 := by
  unfold Slice.len
  rw [handleRequest_toList]
  simp

theorem Fetch_exhausted (mr : mockRequester Ctx S W) (ctx : Ctx) (url : String) (w : W)
    (h : mr.fetches.len ≤ mr.currentIndex) :
    mr.Fetch ctx url w =
      Outcome.returned
        ((none, some (Errorf (mockRequester.exhaustedText mr.currentIndex))), mr, w) := by
  unfold mockRequester.Fetch
  rw [if_pos h]

theorem Fetch_dispatch (mr : mockRequester Ctx S W) (ctx : Ctx) (url : String) (w : W)
    (h0 : 0 ≤ mr.currentIndex) (h1 : mr.currentIndex < mr.fetches.len) :
    ∃ current, mr.fetches.index mr.currentIndex = some current ∧
      mr.fetches.toList[mr.currentIndex.toNat]? = some current ∧
      mr.Fetch ctx url w =
        Outcome.returned ((current ctx url w).1,
          { currentIndex := mr.currentIndex + 1, fetches := mr.fetches },
          (current ctx url w).2) := by
  obtain ⟨current, hidx, hget⟩ := Slice.index_of_lt mr.fetches mr.currentIndex h0 h1
  refine ⟨current, hidx, hget, ?_⟩
  unfold mockRequester.Fetch
  rw [if_neg (by omega), hidx]

theorem Fetch_negative (mr : mockRequester Ctx S W) (ctx : Ctx) (url : String) (w : W)
    (h : mr.currentIndex < 0) : mr.Fetch ctx url w = Outcome.panicked := by
  have hlen := Slice.len_nonneg mr.fetches
  unfold mockRequester.Fetch
  rw [if_neg (by omega)]
  unfold Slice.index
  rw [if_pos h]

theorem formatD_ofNat (n : Nat) : formatD (n : Int) = Nat.repr n := rfl

theorem containsText_middle (pre mid post : String) : containsText (pre ++ mid ++ post) mid := by
  unfold containsText
  exact ⟨pre.data, post.data, by simp [String.data_append]⟩

end MockLemmas

/-! ## Sequences of calls -/

section SequenceLemmas

variable {Ctx S W : Type}

theorem step_keeps_bounds (c : Call Ctx S W) (s : mockRequester Ctx S W × W)
    (h0 : 0 ≤ s.1.currentIndex) (h1 : s.1.currentIndex ≤ s.1.fetches.len) :
    ∃ s1, step c s = Outcome.returned s1 ∧ 0 ≤ s1.1.currentIndex ∧
      s1.1.currentIndex ≤ s1.1.fetches.len ∧ s.1.currentIndex ≤ s1.1.currentIndex := by
  cases c with
  | handleRequest fn =>
    refine ⟨(s.1.handleRequest fn, s.2), rfl, ?_, ?_, ?_⟩
    · simpa [handleRequest_currentIndex] using h0
    · simp only [handleRequest_currentIndex, handleRequest_len]; omega
    · simp [handleRequest_currentIndex]
  | Fetch ctx url =>
    by_cases hex : s.1.fetches.len ≤ s.1.currentIndex
    · refine ⟨s, ?_, h0, h1, le_refl _⟩
      unfold step
      simp only [Fetch_exhausted s.1 ctx url s.2 hex]
    · obtain ⟨current, _, _, hf⟩ := Fetch_dispatch s.1 ctx url s.2 h0 (by omega)
      refine ⟨({ currentIndex := s.1.currentIndex + 1, fetches := s.1.fetches },
        (current ctx url s.2).2), ?_, ?_, ?_, ?_⟩
      · unfold step
        simp only [hf]
      · show 0 ≤ s.1.currentIndex + 1
        omega
      · show s.1.currentIndex + 1 ≤ s.1.fetches.len
        omega
      · show s.1.currentIndex ≤ s.1.currentIndex + 1
        omega

theorem run_keeps_bounds (calls : List (Call Ctx S W)) :
    ∀ s : mockRequester Ctx S W × W, 0 ≤ s.1.currentIndex →
      s.1.currentIndex ≤ s.1.fetches.len →
      ∃ s1, run calls s = Outcome.returned s1 ∧ 0 ≤ s1.1.currentIndex ∧
        s1.1.currentIndex ≤ s1.1.fetches.len := by
  induction calls with
  | nil => intro s h0 h1; exact ⟨s, rfl, h0, h1⟩
  | cons c cs ih =>
    intro s h0 h1
    obtain ⟨s1, hs, h0a, h1a, _⟩ := step_keeps_bounds c s h0 h1
    obtain ⟨s2, hr, h0b, h1b⟩ := ih s1 h0a h1a
    refine ⟨s2, ?_, h0b, h1b⟩
    unfold run
    simp only [hs]
    exact hr

theorem registerAll_currentIndex (fs : List (Responder Ctx S W)) :
    ∀ mr : mockRequester Ctx S W, (registerAll mr fs).currentIndex = mr.currentIndex := by
  induction fs with
  | nil => intro mr; rfl
  | cons f fs ih =>
    intro mr
    unfold registerAll
    rw [ih, handleRequest_currentIndex]

theorem registerAll_toList (fs : List (Responder Ctx S W)) :
    ∀ mr : mockRequester Ctx S W,
      (registerAll mr fs).fetches.toList = mr.fetches.toList ++ fs := by
  induction fs with
  | nil => intro mr; simp [registerAll]
  | cons f fs ih =>
    intro mr
    unfold registerAll
    rw [ih, handleRequest_toList]
    simp

theorem fetchAll_in_order (args : List (Ctx × String)) :
    ∀ (fs : List (Responder Ctx S W)) (mr : mockRequester Ctx S W) (w : W),
      0 ≤ mr.currentIndex → mr.fetches.toList.drop mr.currentIndex.toNat = fs →
      args.length = fs.length →
      fetchAll mr w args =
        Outcome.returned ((inRegistrationOrder fs args w).1,
          { currentIndex := mr.currentIndex + (args.length : Int), fetches := mr.fetches },
          (inRegistrationOrder fs args w).2) := by
  induction args with
  | nil =>
    intro fs mr w _ _ hlen
    cases fs with
    | nil => simp [fetchAll, inRegistrationOrder]
    | cons f fs => simp at hlen
  | cons a rest ih =>
    intro fs mr w h0 hdrop hlen
    cases fs with
    | nil => simp at hlen
    | cons f fs =>
      have hlt : mr.currentIndex.toNat < mr.fetches.toList.length := by
        by_contra hge
        rw [List.drop_eq_nil_of_le (by omega)] at hdrop
        exact List.noConfusion hdrop
      rw [List.drop_eq_getElem_cons hlt] at hdrop
      have hhead : mr.fetches.toList[mr.currentIndex.toNat] = f := (List.cons.inj hdrop).1
      have htail : mr.fetches.toList.drop (mr.currentIndex.toNat + 1) = fs :=
        (List.cons.inj hdrop).2
      have hlen1 : mr.currentIndex < mr.fetches.len := by unfold Slice.len; omega
      obtain ⟨current, _, hget, hf⟩ := Fetch_dispatch mr a.1 a.2 w h0 hlen1
      have hcur : current = f := by
        rw [List.getElem?_eq_getElem hlt, hhead] at hget
        exact (Option.some.inj hget).symm
      subst hcur
      have hnext : (mr.currentIndex + 1).toNat = mr.currentIndex.toNat + 1 := by omega
      have hrec := ih fs { currentIndex := mr.currentIndex + 1, fetches := mr.fetches }
        (current a.1 a.2 w).2 (by show 0 ≤ mr.currentIndex + 1; omega)
        (by show mr.fetches.toList.drop (mr.currentIndex + 1).toNat = fs; rw [hnext]; exact htail)
        (by simpa using hlen)
      unfold fetchAll
      simp only [hf, hrec, inRegistrationOrder]
      have harith : mr.currentIndex + 1 + (rest.length : Int)
          = mr.currentIndex + ((a :: rest).length : Int) := by
        simp only [List.length_cons]; push_cast; omega
      rw [harith]

theorem inRegistrationOrder_cons (f : Responder Ctx S W) (fs : List (Responder Ctx S W))
    (a : Ctx × String) (rest : List (Ctx × String)) (w : W) :
    inRegistrationOrder (f :: fs) (a :: rest) w =
      ((f a.1 a.2 w).1 :: (inRegistrationOrder fs rest (f a.1 a.2 w).2).1,
        (inRegistrationOrder fs rest (f a.1 a.2 w).2).2) := rfl

theorem inRegistrationOrder_length (fs : List (Responder Ctx S W)) :
    ∀ (args : List (Ctx × String)) (w : W), args.length = fs.length →
      (inRegistrationOrder fs args w).1.length = fs.length := by
  induction fs with
  | nil => intro args w _; cases args <;> simp [inRegistrationOrder]
  | cons f fs ih =>
    intro args w hlen
    cases args with
    | nil => simp at hlen
    | cons a rest =>
      simp only [inRegistrationOrder, List.length_cons]
      rw [ih rest _ (by simpa using hlen)]

theorem inRegistrationOrder_get (fs : List (Responder Ctx S W)) :
    ∀ (args : List (Ctx × String)) (w : W) (k : Nat), args.length = fs.length →
      k < fs.length →
      ∃ f a, fs[k]? = some f ∧ args[k]? = some a ∧
        (inRegistrationOrder fs args w).1[k]? =
          some (f a.1 a.2 (inRegistrationOrder (fs.take k) (args.take k) w).2).1 := by
  induction fs with
  | nil => intro args w k _ hk; simp at hk
  | cons f fs ih =>
    intro args w k hlen hk
    cases args with
    | nil => simp at hlen
    | cons a rest =>
      cases k with
      | zero =>
        refine ⟨f, a, List.getElem?_cons_zero, List.getElem?_cons_zero, ?_⟩
        rw [inRegistrationOrder_cons]
        show ((f a.1 a.2 w).1 :: (inRegistrationOrder fs rest (f a.1 a.2 w).2).1)[0]? = _
        rw [List.getElem?_cons_zero]
        rfl
      | succ k =>
        obtain ⟨g, b, hg, hb, hres⟩ := ih rest (f a.1 a.2 w).2 k (Nat.succ.inj hlen)
          (Nat.lt_of_succ_lt_succ hk)
        refine ⟨g, b, ?_, ?_, ?_⟩
        · rw [List.getElem?_cons_succ]; exact hg
        · rw [List.getElem?_cons_succ]; exact hb
        · rw [inRegistrationOrder_cons, List.take_succ_cons, List.take_succ_cons,
            inRegistrationOrder_cons]
          show ((f a.1 a.2 w).1 :: (inRegistrationOrder fs rest (f a.1 a.2 w).2).1)[k + 1]? = _
          rw [List.getElem?_cons_succ]
          exact hres

theorem fetchAll_exhausted (args : List (Ctx × String)) (mr : mockRequester Ctx S W) (w : W)
    (h : mr.fetches.len ≤ mr.currentIndex) :
    fetchAll mr w args =
      Outcome.returned
        (args.map (fun _ => (none, some (Errorf (mockRequester.exhaustedText mr.currentIndex)))),
          mr, w) := by
  induction args with
  | nil => rfl
  | cons a rest ih =>
    unfold fetchAll
    simp only [Fetch_exhausted mr a.1 a.2 w h, ih, List.map_cons]

end SequenceLemmas

/-! ## Claims on mockRequester.Fetch and mockRequester.handleRequest -/

/-- C1: in a state with `0 <= currentIndex < len(fetches)`, `Fetch` with any
context and any url (the empty url included) returns exactly the pair that
`fetches[currentIndex]` returns on the same arguments, the world is the one that
responder leaves, `currentIndex` has grown by exactly 1 and `fetches` is
unchanged; nothing depends on whether the pair holds a stream or an error. -/
theorem fetch_dispatches_current {Ctx S W : Type} (mr : mockRequester Ctx S W) (ctx : Ctx)
    (url : String) (w : W) (h0 : 0 ≤ mr.currentIndex)
    (h1 : mr.currentIndex < mr.fetches.len) :
    ∃ current, mr.fetches.index mr.currentIndex = some current ∧
      mr.Fetch ctx url w =
        Outcome.returned ((current ctx url w).1,
          { currentIndex := mr.currentIndex + 1, fetches := mr.fetches },
          (current ctx url w).2) := by
  obtain ⟨current, hidx, _, hf⟩ := Fetch_dispatch mr ctx url w h0 h1
  exact ⟨current, hidx, hf⟩

/-- Witness of C1: two responders registered, none consumed, empty url. -/
theorem fetch_dispatches_current_witness :
    (0 ≤ twoResponders.currentIndex ∧ twoResponders.currentIndex < twoResponders.fetches.len) ∧
    ∃ current, twoResponders.fetches.index twoResponders.currentIndex = some current ∧
      twoResponders.Fetch () "" [] =
        Outcome.returned ((current () "" []).1,
          { currentIndex := twoResponders.currentIndex + 1, fetches := twoResponders.fetches },
          (current () "" []).2) :=
  ⟨by decide, fetch_dispatches_current twoResponders () "" [] (by decide) (by decide)⟩

/-- C2: in a state with `currentIndex >= len(fetches)`, `Fetch` returns a nil
stream and the error whose text is "No for currentIndex <n> to mock", `<n>`
being the decimal digits of `currentIndex`; the world is untouched (no responder
runs) and `currentIndex` and `fetches` are unchanged.  With no responder
registered and `currentIndex` 0 the text is "No for currentIndex 0 to mock". -/
theorem fetch_exhausted_error {Ctx S W : Type} (mr : mockRequester Ctx S W) (ctx : Ctx)
    (url : String) (w : W) (h : mr.fetches.len ≤ mr.currentIndex) :
    mr.Fetch ctx url w =
        Outcome.returned
          ((none, some (GoError.mk (mockRequester.exhaustedText mr.currentIndex))), mr, w) ∧
      mockRequester.exhaustedText mr.currentIndex =
        "No for currentIndex " ++ Nat.repr mr.currentIndex.toNat ++ " to mock" ∧
      containsText (mockRequester.exhaustedText mr.currentIndex)
        (Nat.repr mr.currentIndex.toNat) ∧
      (mr.fetches.toList = [] → mr.currentIndex = 0 →
        mr.Fetch ctx url w =
          Outcome.returned
            ((none, some (GoError.mk "No for currentIndex 0 to mock")), mr, w)) := by
  have hnn : 0 ≤ mr.currentIndex := le_trans (Slice.len_nonneg _) h
  have hfmt : formatD mr.currentIndex = Nat.repr mr.currentIndex.toNat := by
    conv_lhs => rw [← Int.toNat_of_nonneg hnn]
    exact formatD_ofNat _
  have htext : mockRequester.exhaustedText mr.currentIndex =
      "No for currentIndex " ++ Nat.repr mr.currentIndex.toNat ++ " to mock" := by
    unfold mockRequester.exhaustedText
    rw [hfmt]
  refine ⟨Fetch_exhausted mr ctx url w h, htext, ?_, ?_⟩
  · rw [htext]
    exact containsText_middle _ _ _
  · intro _ hz
    have := Fetch_exhausted mr ctx url w h
    rw [this, hz]
    rfl

/-- Witness of C2: both registered responders consumed, `currentIndex` 2. -/
theorem fetch_exhausted_error_witness :
    exhaustedTwo.fetches.len ≤ exhaustedTwo.currentIndex ∧
    exhaustedTwo.Fetch () "http://host/v" [] =
      Outcome.returned
        ((none, some (GoError.mk "No for currentIndex 2 to mock")), exhaustedTwo, []) :=
  ⟨by decide, (fetch_exhausted_error exhaustedTwo () "http://host/v" [] (by decide)).1⟩

/-- C4: for every state (nil, empty or non-empty `fetches`, any `currentIndex`)
and every responder `fn`, after `handleRequest(fn)` the slice `fetches` is
non-nil and holds the old entries, each at its old index, followed by `fn` as
the last entry, so that its length has grown by exactly 1; `currentIndex` is
unchanged, and the world is untouched (no responder runs). -/
theorem handleRequest_appends {Ctx S W : Type} (mr : mockRequester Ctx S W)
    (fn : Responder Ctx S W) (w : W) :
    (mr.handleRequest fn).fetches.toList = mr.fetches.toList ++ [fn] ∧
      (mr.handleRequest fn).fetches.isNil = false ∧
      (mr.handleRequest fn).fetches.len = mr.fetches.len + 1 ∧
      (∀ i : Int, 0 ≤ i → i < mr.fetches.len →
        (mr.handleRequest fn).fetches.index i = mr.fetches.index i) ∧
      (mr.handleRequest fn).fetches.index mr.fetches.len = some fn ∧
      (mr.handleRequest fn).currentIndex = mr.currentIndex ∧
      step (Call.handleRequest fn) (mr, w) = Outcome.returned (mr.handleRequest fn, w) := by
  refine ⟨handleRequest_toList mr fn, ?_, handleRequest_len mr fn, ?_, ?_,
    handleRequest_currentIndex mr fn, rfl⟩
  · unfold mockRequester.handleRequest
    cases mr.fetches <;> rfl
  · intro i h0 h1
    unfold Slice.len at h1
    unfold Slice.index
    have hlt : i.toNat < mr.fetches.toList.length := by omega
    rw [if_neg (by omega), if_neg (by omega), handleRequest_toList]
    exact List.getElem?_append_left hlt
  · unfold Slice.index
    rw [if_neg (by have := Slice.len_nonneg mr.fetches; omega), handleRequest_toList]
    unfold Slice.len
    simp

/-- C3: for every list of responders `fs` (of any length `N`, zero included),
registering them in order on a zero-value requester and then making `N` calls
of `Fetch` with arbitrary arguments consumes the responders in registration
order: the results are those of applying the k-th responder once to the k-th
argument pair, one after the other, whatever the urls; the k-th result is the
result of `fs[k]` on `args[k]` in the world the first `k` responders left.
Afterwards `currentIndex` is `N`, and one more `Fetch` returns the exhaustion
error for index `N` without touching the requester or the world. -/
theorem registered_consumed_in_order {Ctx S W : Type} (fs : List (Responder Ctx S W))
    (args : List (Ctx × String)) (w : W) (hlen : args.length = fs.length) :
    (registerAll (mockRequester.zero : mockRequester Ctx S W) fs).fetches.toList = fs ∧
      fetchAll (registerAll mockRequester.zero fs) w args =
        Outcome.returned ((inRegistrationOrder fs args w).1,
          { currentIndex := (fs.length : Int),
            fetches := (registerAll mockRequester.zero fs).fetches },
          (inRegistrationOrder fs args w).2) ∧
      (inRegistrationOrder fs args w).1.length = fs.length ∧
      (∀ k : Nat, k < fs.length → ∃ f a, fs[k]? = some f ∧ args[k]? = some a ∧
        (inRegistrationOrder fs args w).1[k]? =
          some (f a.1 a.2 (inRegistrationOrder (fs.take k) (args.take k) w).2).1) ∧
      ∀ (ctx : Ctx) (url : String) (w1 : W),
        mockRequester.Fetch
            { currentIndex := (fs.length : Int),
              fetches := (registerAll (mockRequester.zero : mockRequester Ctx S W) fs).fetches }
            ctx url w1 =
          Outcome.returned
            ((none, some (GoError.mk
              ("No for currentIndex " ++ Nat.repr fs.length ++ " to mock"))),
              { currentIndex := (fs.length : Int),
                fetches := (registerAll mockRequester.zero fs).fetches }, w1) := by
  have hlist : (registerAll (mockRequester.zero : mockRequester Ctx S W) fs).fetches.toList
      = fs := by
    rw [registerAll_toList]
    rfl
  have hci : (registerAll (mockRequester.zero : mockRequester Ctx S W) fs).currentIndex = 0 := by
    rw [registerAll_currentIndex]
    rfl
  refine ⟨hlist, ?_, inRegistrationOrder_length fs args w hlen,
    fun k hk => inRegistrationOrder_get fs args w k hlen hk, ?_⟩
  · have h := fetchAll_in_order args fs (registerAll mockRequester.zero fs) w
      (by rw [hci]) (by rw [hci, hlist]; rfl) hlen
    rw [h, hci, hlen, zero_add]
  · intro ctx url w1
    have h := Fetch_exhausted
      ({ currentIndex := (fs.length : Int),
         fetches := (registerAll (mockRequester.zero : mockRequester Ctx S W) fs).fetches } :
        mockRequester Ctx S W) ctx url w1
      (by show Slice.len _ ≤ (fs.length : Int); unfold Slice.len; rw [hlist])
    rw [h]
    rfl

/-- Witness of C3: responders `[f0, f1]`; the first call is answered by `f0`,
the second by `f1`, a third call fails with the error for index 2. -/
theorem registered_consumed_in_order_witness :
    [((), "http://a"), ((), "http://b")].length
        = [okResponder "f0", errResponder "f1"].length ∧
    fetchAll (registerAll mockRequester.zero [okResponder "f0", errResponder "f1"]) []
        [((), "http://a"), ((), "http://b")] =
      Outcome.returned
        ([(some "body of http://a", none), (none, some (GoError.mk "boom"))],
          { currentIndex := 2,
            fetches := (registerAll mockRequester.zero
              [okResponder "f0", errResponder "f1"]).fetches },
          ["f0", "f1"]) ∧
    mockRequester.Fetch
        { currentIndex := 2,
          fetches := (registerAll mockRequester.zero
            [okResponder "f0", errResponder "f1"]).fetches }
        () "http://c" ["f0", "f1"] =
      Outcome.returned
        ((none, some (GoError.mk "No for currentIndex 2 to mock")),
          { currentIndex := 2,
            fetches := (registerAll mockRequester.zero
              [okResponder "f0", errResponder "f1"]).fetches },
          ["f0", "f1"]) :=
  ⟨rfl,
    (registered_consumed_in_order [okResponder "f0", errResponder "f1"]
      [((), "http://a"), ((), "http://b")] [] rfl).2.1,
    (registered_consumed_in_order [okResponder "f0", errResponder "f1"]
      [((), "http://a"), ((), "http://b")] [] rfl).2.2.2.2 () "http://c" ["f0", "f1"]⟩

/-- Witness of C4: a third responder is registered on a requester holding
two, and a first one on the zero value, whose `fetches` is nil. -/
theorem handleRequest_appends_witness :
    ((exhaustedTwo.handleRequest (okResponder "f2")).fetches.len = 3 ∧
      (exhaustedTwo.handleRequest (okResponder "f2")).fetches.index 2
        = some (okResponder "f2") ∧
      (exhaustedTwo.handleRequest (okResponder "f2")).currentIndex = 2) ∧
    ((mockRequester.zero : mockRequester Unit String (List String)).handleRequest
        (okResponder "f0")).fetches.toList = [okResponder "f0"] :=
  ⟨⟨(handleRequest_appends exhaustedTwo (okResponder "f2") []).2.2.1,
      (handleRequest_appends exhaustedTwo (okResponder "f2") []).2.2.2.2.1,
      (handleRequest_appends exhaustedTwo (okResponder "f2") []).2.2.2.2.2.1⟩,
    (handleRequest_appends mockRequester.zero (okResponder "f0") []).1⟩

/-- C5: every finite sequence of `handleRequest` and `Fetch` calls, started on
the zero-value requester, runs without a panic and ends in a state with
`0 <= currentIndex <= len(fetches)`; from such a state no further single call
decreases `currentIndex`, and whenever `Fetch` gets past its length check the
slice access `fetches[currentIndex]` is in bounds. -/
theorem reachable_index_in_bounds {Ctx S W : Type} (calls : List (Call Ctx S W)) (w0 : W) :
    ∃ s, run calls (mockRequester.zero, w0) = Outcome.returned s ∧
      0 ≤ s.1.currentIndex ∧ s.1.currentIndex ≤ s.1.fetches.len ∧
      (∀ c : Call Ctx S W, ∃ s1, step c s = Outcome.returned s1 ∧
        s.1.currentIndex ≤ s1.1.currentIndex) ∧
      (¬ s.1.fetches.len ≤ s.1.currentIndex →
        ∃ current, s.1.fetches.index s.1.currentIndex = some current) := by
  obtain ⟨s, hrun, h0, h1⟩ := run_keeps_bounds calls
    ((mockRequester.zero : mockRequester Ctx S W), w0) (le_refl _)
    (by show (0 : Int) ≤ Slice.len Slice.nil; exact Slice.len_nonneg _)
  refine ⟨s, hrun, h0, h1, ?_, ?_⟩
  · intro c
    obtain ⟨s1, hs, _, _, hmono⟩ := step_keeps_bounds c s h0 h1
    exact ⟨s1, hs, hmono⟩
  · intro hlt
    obtain ⟨current, hidx, _⟩ := Slice.index_of_lt s.1.fetches s.1.currentIndex h0 (by omega)
    exact ⟨current, hidx⟩

/-- Witness of C5: a `Fetch` before any registration, two registrations and
three more `Fetch` calls end with `currentIndex` 2 and two responders. -/
theorem reachable_index_in_bounds_witness :
    run [Call.Fetch () "u0", Call.handleRequest (okResponder "f0"),
          Call.handleRequest (errResponder "f1"), Call.Fetch () "u1", Call.Fetch () "u2",
          Call.Fetch () "u3"] (mockRequester.zero, []) =
        Outcome.returned
          ({ currentIndex := 2, fetches := Slice.mk [okResponder "f0", errResponder "f1"] },
            ["f0", "f1"]) ∧
      ∃ s, run [Call.Fetch () "u0", Call.handleRequest (okResponder "f0"),
          Call.handleRequest (errResponder "f1"), Call.Fetch () "u1", Call.Fetch () "u2",
          Call.Fetch () "u3"] (mockRequester.zero, []) = Outcome.returned s ∧
        0 ≤ s.1.currentIndex ∧ s.1.currentIndex ≤ s.1.fetches.len :=
  ⟨rfl,
    (reachable_index_in_bounds [Call.Fetch () "u0", Call.handleRequest (okResponder "f0"),
      Call.handleRequest (errResponder "f1"), Call.Fetch () "u1", Call.Fetch () "u2",
      Call.Fetch () "u3"] ([] : List String)).imp
      (fun _ h => ⟨h.1, h.2.1, h.2.2.1⟩)⟩

/-- C10: in a state with `currentIndex = len(fetches)`, any number of `Fetch`
calls (one or more included) all fail with the exhaustion error and leave the
requester and the world as they were; a responder `fn` registered afterwards is
served by the very next `Fetch`, which returns what `fn` returns on the same
arguments and leaves `currentIndex` one above its old value. -/
theorem exhausted_fetch_keeps_slot {Ctx S W : Type} (mr : mockRequester Ctx S W)
    (failing : List (Ctx × String)) (fn : Responder Ctx S W) (ctx : Ctx) (url : String) (w : W)
    (h : mr.currentIndex = mr.fetches.len) :
    fetchAll mr w failing =
        Outcome.returned
          (failing.map
            (fun _ => (none, some (GoError.mk (mockRequester.exhaustedText mr.currentIndex)))),
            mr, w) ∧
      (mr.handleRequest fn).Fetch ctx url w =
        Outcome.returned ((fn ctx url w).1,
          { currentIndex := mr.currentIndex + 1, fetches := (mr.handleRequest fn).fetches },
          (fn ctx url w).2) := by
  refine ⟨fetchAll_exhausted failing mr w (by omega), ?_⟩
  have hnn : 0 ≤ mr.currentIndex := by rw [h]; exact Slice.len_nonneg _
  obtain ⟨current, _, hget, hf⟩ := Fetch_dispatch (mr.handleRequest fn) ctx url w
    (by rw [handleRequest_currentIndex]; exact hnn)
    (by rw [handleRequest_currentIndex, handleRequest_len]; omega)
  have hcur : current = fn := by
    rw [handleRequest_currentIndex, handleRequest_toList] at hget
    have hidx : mr.currentIndex.toNat = mr.fetches.toList.length := by
      rw [h]; unfold Slice.len; simp
    rw [hidx, List.getElem?_append_right (le_refl _)] at hget
    simpa using hget.symm
  subst hcur
  rw [hf, handleRequest_currentIndex]

/-- Witness of C10: two responders consumed, three failing calls, then a
third responder is registered and served. -/
theorem exhausted_fetch_keeps_slot_witness :
    exhaustedTwo.currentIndex = exhaustedTwo.fetches.len ∧
    fetchAll exhaustedTwo ["f0", "f1"] [((), "x"), ((), "y"), ((), "z")] =
      Outcome.returned
        ([(none, some (GoError.mk "No for currentIndex 2 to mock")),
          (none, some (GoError.mk "No for currentIndex 2 to mock")),
          (none, some (GoError.mk "No for currentIndex 2 to mock"))],
          exhaustedTwo, ["f0", "f1"]) ∧
    (exhaustedTwo.handleRequest (okResponder "f2")).Fetch () "http://late" ["f0", "f1"] =
      Outcome.returned ((some "body of http://late", none),
        { currentIndex := 3, fetches := (exhaustedTwo.handleRequest (okResponder "f2")).fetches },
        ["f0", "f1", "f2"]) :=
  ⟨by decide,
    exhausted_fetch_keeps_slot exhaustedTwo [((), "x"), ((), "y"), ((), "z")]
      (okResponder "f2") () "http://late" ["f0", "f1"] (by decide)⟩

/-! ## HTTPRequester.Fetch -/

section HTTPLemmas

variable {Ctx Req S W : Type}

theorem HTTPFetch_construct_error (rq : HTTPRequester) (http : HTTPClient Ctx Req S W)
    (ctx : Ctx) (url : String) (w : W) (req : Option Req) (e : GoError)
    (hreq : http.NewRequestWithContext ctx MethodGet url = (req, some e)) :
    rq.Fetch http ctx url w = Outcome.returned ((none, some e), w) := by
  unfold HTTPRequester.Fetch
  rw [hreq]

theorem HTTPFetch_dispatch_error (rq : HTTPRequester) (http : HTTPClient Ctx Req S W)
    (ctx : Ctx) (url : String) (w w1 : W) (req : Option Req) (resp : Option (Response S))
    (e : GoError) (hreq : http.NewRequestWithContext ctx MethodGet url = (req, none))
    (hdo : http.Do req w = ((resp, some e), w1)) :
    rq.Fetch http ctx url w = Outcome.returned ((none, some e), w1) := by
  unfold HTTPRequester.Fetch
  rw [hreq]
  simp only
  rw [hdo]
  cases resp <;> rfl

theorem HTTPFetch_response (rq : HTTPRequester) (http : HTTPClient Ctx Req S W)
    (ctx : Ctx) (url : String) (w w1 : W) (req : Option Req) (resp : Response S)
    (hreq : http.NewRequestWithContext ctx MethodGet url = (req, none))
    (hdo : http.Do req w = ((some resp, none), w1)) :
    rq.Fetch http ctx url w =
      if resp.StatusCode ≠ 200 then
        Outcome.returned ((none, some (Errorf (badStatusText url resp.Status))), w1)
      else
        Outcome.returned ((resp.Body, none), w1) := by
  unfold HTTPRequester.Fetch
  rw [hreq]
  simp only
  rw [hdo]

theorem HTTPFetch_nil_response (rq : HTTPRequester) (http : HTTPClient Ctx Req S W)
    (ctx : Ctx) (url : String) (w w1 : W) (req : Option Req)
    (hreq : http.NewRequestWithContext ctx MethodGet url = (req, none))
    (hdo : http.Do req w = ((none, none), w1)) :
    rq.Fetch http ctx url w = Outcome.panicked := by
  unfold HTTPRequester.Fetch
  rw [hreq]
  simp only
  rw [hdo]

/-- Every way `HTTPRequester.Fetch` can end, by the results of the request
constructor and of the client. -/
theorem HTTPFetch_cases (rq : HTTPRequester) (http : HTTPClient Ctx Req S W)
    (ctx : Ctx) (url : String) (w : W) :
    (∃ e, rq.Fetch http ctx url w = Outcome.returned ((none, some e), w)) ∨
    (∃ e, rq.Fetch http ctx url w = Outcome.returned ((none, some e),
        (http.Do (http.NewRequestWithContext ctx MethodGet url).1 w).2)) ∨
    (∃ body, rq.Fetch http ctx url w = Outcome.returned ((body, none),
        (http.Do (http.NewRequestWithContext ctx MethodGet url).1 w).2)) ∨
    rq.Fetch http ctx url w = Outcome.panicked := by
  rcases hreq : http.NewRequestWithContext ctx MethodGet url with ⟨req, _ | e⟩
  · rcases hdo : http.Do req w with ⟨⟨resp, _ | e⟩, w1⟩
    · cases resp with
      | none => exact Or.inr (Or.inr (Or.inr (HTTPFetch_nil_response rq http ctx url w w1 req hreq hdo)))
      | some resp =>
        have h := HTTPFetch_response rq http ctx url w w1 req resp hreq hdo
        by_cases hc : resp.StatusCode ≠ 200
        · rw [if_pos hc] at h
          exact Or.inr (Or.inl ⟨_, h⟩)
        · rw [if_neg hc] at h
          exact Or.inr (Or.inr (Or.inl ⟨_, h⟩))
    · exact Or.inr (Or.inl ⟨e, HTTPFetch_dispatch_error rq http ctx url w w1 req resp e hreq hdo⟩)
  · exact Or.inl ⟨e, HTTPFetch_construct_error rq http ctx url w req e hreq⟩

theorem containsText_trans (a b c : String) (hab : containsText a b) (hbc : containsText b c) :
    containsText a c := by
  unfold containsText at *
  exact List.IsInfix.trans hbc hab

theorem badStatusText_contains_url (url status : String) :
    containsText (badStatusText url status) url := by
  unfold containsText badStatusText
  exact ⟨"bad http status from ".data, (": " ++ status).data, by simp [String.data_append]⟩

theorem badStatusText_contains_status (url status : String) :
    containsText (badStatusText url status) status := by
  unfold containsText badStatusText
  exact ⟨("bad http status from " ++ url ++ ": ").data, [], by simp [String.data_append]⟩

end HTTPLemmas

/-- C6: when request construction succeeds and the client returns, without
error, a response whose status code is not exactly 200 (201, 204 and 404
included), `HTTPRequester.Fetch` returns a nil stream and the error whose text
is "bad http status from <url>: <status>"; that text contains the requested url
and the response's status description, hence also whatever the description
contains, such as "404" in "404 Not Found". -/
theorem http_bad_status_error {Ctx Req S W : Type} (rq : HTTPRequester)
    (http : HTTPClient Ctx Req S W) (ctx : Ctx) (url : String) (w w1 : W) (req : Option Req)
    (resp : Response S)
    (hreq : http.NewRequestWithContext ctx MethodGet url = (req, none))
    (hdo : http.Do req w = ((some resp, none), w1))
    (hcode : resp.StatusCode ≠ 200) :
    rq.Fetch http ctx url w =
        Outcome.returned
          ((none, some (GoError.mk ("bad http status from " ++ url ++ ": " ++ resp.Status))),
            w1) ∧
      containsText ("bad http status from " ++ url ++ ": " ++ resp.Status) url ∧
      containsText ("bad http status from " ++ url ++ ": " ++ resp.Status) resp.Status ∧
      ∀ code : String, containsText resp.Status code →
        containsText ("bad http status from " ++ url ++ ": " ++ resp.Status) code := by
  refine ⟨?_, badStatusText_contains_url url resp.Status,
    badStatusText_contains_status url resp.Status,
    fun code hc => containsText_trans _ _ _ (badStatusText_contains_status url resp.Status) hc⟩
  rw [HTTPFetch_response rq http ctx url w w1 req resp hreq hdo, if_pos hcode]
  rfl

/-- Witness of C6: the server answers 404 Not Found. -/
theorem http_bad_status_error_witness :
    (demoClient.NewRequestWithContext () MethodGet "http://host/missing"
        = (some "http://host/missing", none) ∧
      demoClient.Do (some "http://host/missing") []
        = ((some { Status := "404 Not Found", StatusCode := 404, Body := some "not here" },
            none), ["http://host/missing"]) ∧
      (404 : Int) ≠ 200) ∧
    HTTPRequester.Fetch HTTPRequester.mk demoClient () "http://host/missing" [] =
      Outcome.returned
        ((none, some (GoError.mk "bad http status from http://host/missing: 404 Not Found")),
          ["http://host/missing"]) ∧
    containsText "bad http status from http://host/missing: 404 Not Found" "404" :=
  ⟨⟨rfl, rfl, by decide⟩,
    (http_bad_status_error HTTPRequester.mk demoClient () "http://host/missing" []
      ["http://host/missing"] (some "http://host/missing")
      { Status := "404 Not Found", StatusCode := 404, Body := some "not here" }
      rfl rfl (by decide)).1,
    (http_bad_status_error HTTPRequester.mk demoClient () "http://host/missing" []
      ["http://host/missing"] (some "http://host/missing")
      { Status := "404 Not Found", StatusCode := 404, Body := some "not here" }
      rfl rfl (by decide)).2.2.2 "404" (by decide)⟩

/-- C8: when request construction succeeds and the client returns, without
error, a response with status code 200, `HTTPRequester.Fetch` returns a nil
error and the response's own body stream, in the world the client left (the
body is neither read nor replaced); whatever a reader obtains from the
returned stream is what it obtains from the response body. -/
theorem http_ok_returns_body {Ctx Req S W : Type} (rq : HTTPRequester)
    (http : HTTPClient Ctx Req S W) (ctx : Ctx) (url : String) (w w1 : W) (req : Option Req)
    (resp : Response S)
    (hreq : http.NewRequestWithContext ctx MethodGet url = (req, none))
    (hdo : http.Do req w = ((some resp, none), w1))
    (hcode : resp.StatusCode = 200) :
    rq.Fetch http ctx url w = Outcome.returned ((resp.Body, none), w1) ∧
      ∀ (r : FetchResult S) (w2 : W), rq.Fetch http ctx url w = Outcome.returned (r, w2) →
        r.2 = none ∧ ∀ (B : Type) (readAll : Option S → W → B × W),
          readAll r.1 w2 = readAll resp.Body w1 := by
  have h : rq.Fetch http ctx url w = Outcome.returned ((resp.Body, none), w1) := by
    rw [HTTPFetch_response rq http ctx url w w1 req resp hreq hdo, if_neg (by simp [hcode])]
  refine ⟨h, ?_⟩
  intro r w2 hr
  rw [h] at hr
  injection hr with hr
  injection hr with h1 h2
  subst h1 h2
  exact ⟨rfl, fun _ _ => rfl⟩

/-- Witness of C8: the server answers 200 OK with body "payload". -/
theorem http_ok_returns_body_witness :
    (demoClient.NewRequestWithContext () MethodGet "http://host/bin"
        = (some "http://host/bin", none) ∧
      demoClient.Do (some "http://host/bin") []
        = ((some { Status := "200 OK", StatusCode := 200, Body := some "payload" }, none),
            ["http://host/bin"]) ∧
      (200 : Int) = 200) ∧
    HTTPRequester.Fetch HTTPRequester.mk demoClient () "http://host/bin" [] =
      Outcome.returned ((some "payload", none), ["http://host/bin"]) :=
  ⟨⟨rfl, rfl, rfl⟩,
    (http_ok_returns_body HTTPRequester.mk demoClient () "http://host/bin" []
      ["http://host/bin"] (some "http://host/bin")
      { Status := "200 OK", StatusCode := 200, Body := some "payload" } rfl rfl rfl).1⟩

/-- C9: if request construction fails with error `e`, `HTTPRequester.Fetch`
returns `(nil, e)` in the world it was given, so nothing was dispatched; if
construction succeeds and the dispatch fails with error `e`, it returns
`(nil, e)` in the world that one dispatch left.  The error is the underlying
one itself.  Whenever `Fetch` returns, the world is the given one or the one
left by a single dispatch: there is no second attempt. -/
theorem http_errors_propagate {Ctx Req S W : Type} (rq : HTTPRequester)
    (http : HTTPClient Ctx Req S W) (ctx : Ctx) (url : String) (w : W) (e : GoError) :
    ((http.NewRequestWithContext ctx MethodGet url).2 = some e →
        rq.Fetch http ctx url w = Outcome.returned ((none, some e), w)) ∧
      ((http.NewRequestWithContext ctx MethodGet url).2 = none →
        (http.Do (http.NewRequestWithContext ctx MethodGet url).1 w).1.2 = some e →
        rq.Fetch http ctx url w = Outcome.returned ((none, some e),
          (http.Do (http.NewRequestWithContext ctx MethodGet url).1 w).2)) ∧
      ∀ (r : FetchResult S) (w2 : W), rq.Fetch http ctx url w = Outcome.returned (r, w2) →
        w2 = w ∨ w2 = (http.Do (http.NewRequestWithContext ctx MethodGet url).1 w).2 := by
  refine ⟨?_, ?_, ?_⟩
  · intro h
    exact HTTPFetch_construct_error rq http ctx url w
      (http.NewRequestWithContext ctx MethodGet url).1 e (by rw [← h])
  · intro h1 h2
    exact HTTPFetch_dispatch_error rq http ctx url w _
      (http.NewRequestWithContext ctx MethodGet url).1
      (http.Do (http.NewRequestWithContext ctx MethodGet url).1 w).1.1 e
      (by rw [← h1]) (by rw [← h2])
  · intro r w2 hr
    rcases HTTPFetch_cases rq http ctx url w with ⟨e1, h⟩ | ⟨e1, h⟩ | ⟨b, h⟩ | h
    · rw [h] at hr; injection hr with hr; injection hr with _ h2; exact Or.inl h2.symm
    · rw [h] at hr; injection hr with hr; injection hr with _ h2; exact Or.inr h2.symm
    · rw [h] at hr; injection hr with hr; injection hr with _ h2; exact Or.inr h2.symm
    · rw [h] at hr; exact Outcome.noConfusion hr

/-- Witness of C9: the url ":" cannot be made into a request, and the host
"down" refuses the connection. -/
theorem http_errors_propagate_witness :
    ((demoClient.NewRequestWithContext () MethodGet ":").2
        = some (GoError.mk "missing protocol scheme") ∧
      HTTPRequester.Fetch HTTPRequester.mk demoClient () ":" [] =
        Outcome.returned ((none, some (GoError.mk "missing protocol scheme")), [])) ∧
    ((demoClient.NewRequestWithContext () MethodGet "http://down/").2 = none ∧
      (demoClient.Do (demoClient.NewRequestWithContext () MethodGet "http://down/").1 []).1.2
        = some (GoError.mk "connection refused") ∧
      HTTPRequester.Fetch HTTPRequester.mk demoClient () "http://down/" [] =
        Outcome.returned ((none, some (GoError.mk "connection refused")), ["http://down/"])) :=
  ⟨⟨rfl, (http_errors_propagate HTTPRequester.mk demoClient () ":" []
      (GoError.mk "missing protocol scheme")).1 rfl⟩,
    ⟨rfl, rfl, (http_errors_propagate HTTPRequester.mk demoClient () "http://down/" []
      (GoError.mk "connection refused")).2.1 rfl rfl⟩⟩

/-! ## Stream and error together -/

/-- C7, as stated, fails: a registered responder that returns a non-nil stream
together with a non-nil error has both returned by `mockRequester.Fetch`. -/
theorem mock_stream_beside_error :
    bothRequester.Fetch () "http://host/v" [] =
        Outcome.returned ((some "truncated", some (GoError.mk "late failure")),
          { currentIndex := 1, fetches := bothRequester.fetches }, []) ∧
      ¬ (∀ (mr : mockRequester Unit String (List String)) (ctx : Unit) (url : String)
          (w : List String) (r : FetchResult String)
          (mr1 : mockRequester Unit String (List String)) (w1 : List String),
          mr.Fetch ctx url w = Outcome.returned (r, mr1, w1) → r.2 ≠ none → r.1 = none) := by
  refine ⟨rfl, ?_⟩
  intro hall
  have h := hall bothRequester () "http://host/v" []
    (some "truncated", some (GoError.mk "late failure"))
    { currentIndex := 1, fetches := bothRequester.fetches } [] rfl (by simp)
  simp at h

/-- C7, amended: whenever `HTTPRequester.Fetch` returns a non-nil error, the
stream it returns is nil.  Whenever `mockRequester.Fetch` returns a non-nil
error, the stream it returns is nil, provided the responder it hands the call
to (if any) does not itself return a non-nil stream together with a non-nil
error on that call. -/
theorem no_stream_beside_error {Ctx Req S W : Type} (rq : HTTPRequester)
    (http : HTTPClient Ctx Req S W) (mr : mockRequester Ctx S W) (ctx : Ctx) (url : String)
    (w : W)
    (hresp : ∀ current, mr.fetches.index mr.currentIndex = some current →
      (current ctx url w).1.2 ≠ none → (current ctx url w).1.1 = none) :
    (∀ (r : FetchResult S) (w1 : W),
        rq.Fetch http ctx url w = Outcome.returned (r, w1) → r.2 ≠ none → r.1 = none) ∧
      (∀ (r : FetchResult S) (mr1 : mockRequester Ctx S W) (w1 : W),
        mr.Fetch ctx url w = Outcome.returned (r, mr1, w1) → r.2 ≠ none → r.1 = none) := by
  constructor
  · intro r w1 hr hne
    rcases HTTPFetch_cases rq http ctx url w with ⟨e1, h⟩ | ⟨e1, h⟩ | ⟨b, h⟩ | h
    · rw [h] at hr; injection hr with hr; injection hr with h1 _; rw [← h1]
    · rw [h] at hr; injection hr with hr; injection hr with h1 _; rw [← h1]
    · rw [h] at hr; injection hr with hr; injection hr with h1 _
      rw [← h1] at hne
      exact absurd rfl hne
    · rw [h] at hr; exact Outcome.noConfusion hr
  · intro r mr1 w1 hr hne
    by_cases hex : mr.fetches.len ≤ mr.currentIndex
    · rw [Fetch_exhausted mr ctx url w hex] at hr
      injection hr with hr; injection hr with h1 _; rw [← h1]
    · by_cases hneg : mr.currentIndex < 0
      · rw [Fetch_negative mr ctx url w hneg] at hr
        exact Outcome.noConfusion hr
      · obtain ⟨current, hidx, _, hf⟩ := Fetch_dispatch mr ctx url w (by omega) (by omega)
        rw [hf] at hr
        injection hr with hr; injection hr with h1 _
        rw [← h1] at hne ⊢
        exact hresp current hidx hne

/-- Witness of amended C7: the responder in turn returns an error and no
stream. -/
theorem no_stream_beside_error_witness :
    (∀ current, oneConsumed.fetches.index oneConsumed.currentIndex = some current →
      (current () "http://host/v" ["f0"]).1.2 ≠ none →
      (current () "http://host/v" ["f0"]).1.1 = none) ∧
    (∀ (r : FetchResult String) (mr1 : mockRequester Unit String (List String))
        (w1 : List String),
      oneConsumed.Fetch () "http://host/v" ["f0"] = Outcome.returned (r, mr1, w1) →
        r.2 ≠ none → r.1 = none) :=
  have hresp : ∀ current, oneConsumed.fetches.index oneConsumed.currentIndex = some current →
      (current () "http://host/v" ["f0"]).1.2 ≠ none →
      (current () "http://host/v" ["f0"]).1.1 = none := by
    intro current h _
    have hc : errResponder "f1" = current := Option.some.inj h
    rw [← hc]
    rfl
  ⟨hresp, (no_stream_beside_error HTTPRequester.mk demoClient oneConsumed ()
    "http://host/v" ["f0"] hresp).2⟩

end Selfupdate
